import Mathlib

/-!
Verification development for the one_sift request-admission core.

Each definition below is a shallow embedding of a function of the
repository (TypeScript middleware / PL/pgSQL stored procedures), translated
directly from the source.  Cryptographic and serialization library
primitives (HMAC-SHA256, JSON parsing of the base64url payload, the sha256
digest used for API keys) are taken as function parameters: the control
flow of the embedded code does not inspect their internals.
-/

/-! ## JWT verification (`src/utils/jwt.ts`, `verifyJwt`)

The decoded JWT payload, as destructured by the auth middleware:
`{ tenantId?: string; userId?: string; exp?: number }`. -/

structure JwtPayload where
  tenantId : Option String
  userId : Option String
  exp : Option Nat
deriving DecidableEq

inductive JwtError where
  | invalidSignature
  | malformedPayload
  | tokenExpired
deriving DecidableEq

/-- JavaScript `s.split(sep)` for a single-character separator (the only
form the embedded code uses: `token.split('.')`, `auth.split(' ')`):
splits at every occurrence of the separator, keeping empty pieces, and
yields `[""]` on the empty string. -/
def splitOnCharAux (sep : Char) : List Char → List Char → List String
  | [], acc => [String.mk acc.reverse]
  | c :: cs, acc =>
    if c = sep then String.mk acc.reverse :: splitOnCharAux sep cs []
    else splitOnCharAux sep cs (c :: acc)

def splitOnChar (sep : Char) (s : String) : List String :=
  splitOnCharAux sep s.data []

/-- Shallow embedding of `verifyJwt(token, secret)`.

`mac secret msg` stands for
`createHmac('sha256', secret).update(msg).digest('base64url')` and
`parse` for `JSON.parse(Buffer.from(payloadB64, 'base64url').toString())`
together with field extraction (`none` models a parse failure, which the
source surfaces as a thrown exception).

The source destructures `token.split('.')` into the first three parts.
When the token has fewer than three dot-separated parts the destructured
`signature` is `undefined`, which can never equal the freshly computed
HMAC string, so the source throws `'Invalid signature'`; the embedding
returns that error directly in this branch.

The expiry test in the source is `payload.exp && payload.exp < now`:
by JavaScript truthiness an `exp` claim equal to `0` skips the test,
which the embedding renders as the conjunct `e ≠ 0`. -/
def verifyJwt (mac : String → String → String) (parse : String → Option JwtPayload)
    (now : Nat) (token : String) (secret : String) : Except JwtError JwtPayload :=
  match splitOnChar '.' token with
  | headerB64 :: payloadB64 :: signature :: _ =>
    let expected := mac secret (headerB64 ++ "." ++ payloadB64)
    if expected ≠ signature then Except.error JwtError.invalidSignature
    else
      match parse payloadB64 with
      | none => Except.error JwtError.malformedPayload
      | some payload =>
        match payload.exp with
        | some e =>
          if e ≠ 0 ∧ e < now then Except.error JwtError.tokenExpired
          else Except.ok payload
        | none => Except.ok payload
  | _ => Except.error JwtError.invalidSignature

/-! ## Auth middleware (`src/api/middleware/auth.ts`) -/

/-- Outcome of the auth middleware.  In the source, failures are thrown as
`UnauthorizedError` / `ForbiddenError` and converted by the global error
boundary (`determineStatusCode`) into 401 / 403 responses; the embedding
returns the outcome directly, so no exception can escape the boundary. -/
inductive AuthOutcome where
  | ok (payload : JwtPayload)
  | unauthorized (msg : String)
  | forbidden (msg : String)
deriving DecidableEq

/-- JavaScript truthiness of an optional string (absent and `''` are falsy). -/
def truthy : Option String → Bool
  | none => false
  | some s => s ≠ ""

/-- Status code attached by the error boundary (`determineStatusCode` in the
error utilities: `UnauthorizedError` ↦ 401, `ForbiddenError` ↦ 403);
`none` means the middleware let the request proceed. -/
def statusOf : AuthOutcome → Option Nat
  | AuthOutcome.ok _ => none
  | AuthOutcome.unauthorized _ => some 401
  | AuthOutcome.forbidden _ => some 403

/-- Shallow embedding of `authenticateToken(request, reply)`.

`authHeader` is `request.headers['authorization']`, `customerIdParam` is
`request.params?.customerId`.  The catch block in the source rethrows
`UnauthorizedError` / `ForbiddenError` and maps every error thrown by
`verifyJwt` to an `UnauthorizedError` (message chosen by a case-sensitive
`includes` test on the thrown message: `'Token expired'` contains
`'expired'`, while `'Invalid signature'` does not contain the lowercase
`'invalid'`, so signature and parse failures both fall through to the
generic message). -/
def authenticateToken (mac : String → String → String) (parse : String → Option JwtPayload)
    (now : Nat) (secret : String)
    (authHeader : Option String) (customerIdParam : Option String) : AuthOutcome :=
  if truthy authHeader = false then
    AuthOutcome.unauthorized "Access token required"
  else
    let auth := authHeader.getD ""
    let parts := splitOnChar ' ' auth
    if parts.length ≠ 2 ∨ parts.head? ≠ some "Bearer" then
      AuthOutcome.unauthorized "Invalid token format. Expected: Bearer <token>"
    else
      let token := parts.getD 1 ""
      match verifyJwt mac parse now token secret with
      | Except.error JwtError.tokenExpired =>
        AuthOutcome.unauthorized "Token has expired"
      | Except.error JwtError.invalidSignature =>
        AuthOutcome.unauthorized "Invalid or expired token"
      | Except.error JwtError.malformedPayload =>
        AuthOutcome.unauthorized "Invalid or expired token"
      | Except.ok payload =>
        if truthy customerIdParam = true ∧ truthy payload.tenantId = true ∧
            customerIdParam ≠ payload.tenantId then
          AuthOutcome.forbidden "Access denied for this resource"
        else
          AuthOutcome.ok payload

/-! ## Tenant guard (`verifyTenant` in `src/api/middleware/auth.ts`) -/

inductive GuardOutcome where
  | pass
  | forbidden
deriving DecidableEq

/-- Shallow embedding of `verifyTenant(request, reply)`:
`userTenantId` is `request.user?.tenantId`, `paramTenant` is
`request.params?.customerId`; a 403 is sent exactly when both are truthy
and differ. -/
def verifyTenant (userTenantId : Option String) (paramTenant : Option String) : GuardOutcome :=
  if truthy userTenantId = true ∧ truthy paramTenant = true ∧ userTenantId ≠ paramTenant then
    GuardOutcome.forbidden
  else
    GuardOutcome.pass

/-- Status sent by `verifyTenant` when it rejects (`reply.status(403)`). -/
def guardStatus : GuardOutcome → Option Nat
  | GuardOutcome.pass => none
  | GuardOutcome.forbidden => some 403

/-! ## Slug handling (`src/utils/slug.ts`) -/

/-- Character class of the regular expression `^[a-z0-9-]+$`. -/
def isSlugChar (c : Char) : Bool :=
  ('a' ≤ c && c ≤ 'z') || ('0' ≤ c && c ≤ '9') || c = '-'

/-- Character-wise lowercasing, modelling `slug.toLowerCase()`. -/
def toLowerString (s : String) : String :=
  String.mk (s.data.map Char.toLower)

/-- Shallow embedding of `sanitizeSlug`: lowercase, then require a full
match of `^[a-z0-9-]+$` (nonempty, every character in the class); the
source throws on failure, modelled by `none`. -/
def sanitizeSlug (slug : String) : Option String :=
  let normalized := toLowerString slug
  if normalized.data ≠ [] ∧ normalized.data.all isSlugChar then some normalized else none

/-- Character-wise replacement of `'-'` by `'_'`, modelling the global
regex replace of every hyphen by an underscore in `schemaNameFromSlug`
(and the SQL `replace(p_slug,'-','_')`). -/
def replaceDashUnderscore (s : String) : String :=
  String.mk (s.data.map (fun c => if c = '-' then '_' else c))

/-- Shallow embedding of `schemaNameFromSlug`. -/
def schemaNameFromSlug (slug : String) : Option String :=
  (sanitizeSlug slug).map (fun sanitized => "customer_" ++ replaceDashUnderscore sanitized)

/-! ## Rate limiter (`src/api/middleware/rate-limit.ts`) -/

structure RateLimitConfig where
  windowMs : Nat
  maxRequests : Nat
deriving DecidableEq

/-- The shared Redis counter store: value of each string key (`redis.incr`
on an absent key behaves as if the value were 0). -/
def Store : Type := String → Nat

/-- Atomic `redis.incr`: returns the incremented value and the new store. -/
def redisIncr (s : Store) (k : String) : Nat × Store :=
  let v := s k + 1
  (v, fun q => if q = k then v else s q)

/-- The counter key `rate_limit:${key}:${windowStart}` (template-string
interpolation renders the number in decimal, i.e. `Nat.repr`). -/
def redisKeyFor (key : String) (windowStart : Nat) : String :=
  "rate_limit:" ++ key ++ ":" ++ Nat.repr windowStart

structure RateLimitResult where
  allowed : Bool
  remaining : Nat
  resetTime : Nat
deriving DecidableEq

/-- Shallow embedding of `RateLimiter.isAllowed(key)`.

`redisUp` models whether the `redis.incr` round trip succeeds; the catch
branch of the source (store unreachable) returns
`{ allowed: true, remaining: maxRequests, resetTime: Date.now() + windowMs }`
without touching the store — the limiter fails open.  `Math.max(0, max - current)`
is natural-number subtraction.  The `redis.expire` call only sets a TTL
(self-cleaning of stale windows) and does not change any counter value, so
it has no effect on the embedded store. -/
def isAllowed (cfg : RateLimitConfig) (redisUp : Bool) (now : Nat) (key : String)
    (s : Store) : RateLimitResult × Store :=
  let windowStart := now / cfg.windowMs * cfg.windowMs
  let redisKey := redisKeyFor key windowStart
  if redisUp then
    let r := redisIncr s redisKey
    ({ allowed := decide (r.1 ≤ cfg.maxRequests),
       remaining := cfg.maxRequests - r.1,
       resetTime := windowStart + cfg.windowMs }, r.2)
  else
    ({ allowed := true, remaining := cfg.maxRequests, resetTime := now + cfg.windowMs }, s)

/-- Response of the middleware built by `createMiddleware`: either let the
request proceed (attaching the rate-limit headers) or send a 429 with a
`retryAfter` hint of `ceil((resetTime - now) / 1000)` seconds. -/
inductive RateLimitDecision where
  | proceed (remaining resetTime : Nat)
  | tooManyRequests (retryAfter : Nat)
deriving DecidableEq

def rateLimitMiddleware (cfg : RateLimitConfig) (redisUp : Bool) (now : Nat) (key : String)
    (s : Store) : RateLimitDecision × Store :=
  let r := isAllowed cfg redisUp now key s
  if r.1.allowed then (RateLimitDecision.proceed r.1.remaining r.1.resetTime, r.2)
  else (RateLimitDecision.tooManyRequests ((r.1.resetTime - now + 999) / 1000), r.2)

/-- Sequential requests against the same limiter and key: the list of
`allowed` flags, in request order, together with the final store. -/
def runRateLimiter (cfg : RateLimitConfig) (key : String) : List Nat → Store → List Bool × Store
  | [], s => ([], s)
  | t :: ts, s =>
    let r := isAllowed cfg true t key s
    let rest := runRateLimiter cfg key ts r.2
    (r.1.allowed :: rest.1, rest.2)

/-! ## API key validation (`src/db/functions.sql`)

Rows of `system.customers` and `system.api_keys` (`src/unnamed/part_002`),
restricted to the columns the embedded functions read or write; neither
table has a plaintext-secret column.  `metadata` models the `jsonb`
column as a key/value association list. -/

structure CustomerRow where
  id : String
  slug : String
  name : String
  is_active : Bool
  metadata : List (String × String)
deriving DecidableEq

structure ApiKeyRow where
  id : String
  customer_id : String
  key_hash : String
  name : String
  last_used_at : Option Nat
  is_active : Bool
  created_at : Nat
  expires_at : Option Nat
deriving DecidableEq

structure SystemDb where
  customers : List CustomerRow
  api_keys : List ApiKeyRow
deriving DecidableEq

/-- Shallow embedding of `system.hash_api_key(p_key)`:
`digest` stands for `encode(digest(p_key, 'sha256'), 'hex')`. -/
def hash_api_key (digest : String → String) (p_key : String) : String :=
  digest p_key

/-- A row of the result table of `system.validate_api_key`. -/
structure ValidateRow where
  customer_id : String
  is_valid : Bool
deriving DecidableEq

/-- Shallow embedding of `system.validate_api_key(p_key)`.

The query joins `api_keys` with `customers` on `c.id = ak.customer_id`,
keeps the rows with `ak.key_hash = v_key_hash`, and computes
`is_valid := ak.is_active AND (expires_at IS NULL OR expires_at > now)
AND c.is_active`.  The trailing `UPDATE` sets `last_used_at` on every
`api_keys` row whose `key_hash` matches — unconditionally, whether or not
the computed `is_valid` was true. -/
def validate_api_key (digest : String → String) (now : Nat) (db : SystemDb)
    (p_key : String) : List ValidateRow × SystemDb :=
  let v_key_hash := hash_api_key digest p_key
  let rows :=
    (db.api_keys.filter (fun ak => ak.key_hash = v_key_hash)).flatMap (fun ak =>
      (db.customers.filter (fun c => c.id = ak.customer_id)).map (fun c =>
        { customer_id := ak.customer_id
          is_valid := ak.is_active &&
            (match ak.expires_at with
             | none => true
             | some e => decide (now < e)) &&
            c.is_active }))
  let api_keys' := db.api_keys.map (fun ak =>
    if ak.key_hash = v_key_hash then { ak with last_used_at := some now } else ak)
  (rows, { db with api_keys := api_keys' })

/-- Error raised by a failing SQL statement inside a function body. -/
inductive SqlError where
  | updateFailed
deriving DecidableEq

/-- Execution of a `system.validate_api_key` call including the fate of the
trailing `UPDATE` statement: `updateOk` models whether that statement
succeeds.  The function body has no `EXCEPTION` handler, so when the
`UPDATE` raises, the whole call aborts and the error propagates to the
caller — no result rows are returned and the aborted transaction leaves
the store unchanged.  When every statement succeeds the call returns the
rows and updated store of `validate_api_key`. -/
def validate_api_key_call (digest : String → String) (now : Nat) (db : SystemDb)
    (p_key : String) (updateOk : Bool) : Except SqlError (List ValidateRow × SystemDb) :=
  if updateOk then Except.ok (validate_api_key digest now db p_key)
  else Except.error SqlError.updateFailed

/-! ## Tenant provisioning (`src/db/customer-schema.sql`,
`system.create_customer_schema`) -/

structure PersonaRow where
  id : Nat
  name : String
  system_prompt : String
  is_default : Bool
deriving DecidableEq

/-- Database state seen by the provisioner: the set of schemas, the set of
`(schema, table)` pairs, the rows of each schema's `personas` table
(tagged by schema), a counter modelling `uuid_generate_v4()` freshness,
and the `system.customers` rows. -/
structure ProvState where
  schemas : List String
  tables : List (String × String)
  personas : List (String × PersonaRow)
  next_uuid : Nat
  customers : List CustomerRow
deriving DecidableEq

/-- The `jsonb_set(COALESCE(metadata,'{}'), '{schema_name}', v)` update on
the association-list model of the `jsonb` column. -/
def jsonbSet (m : List (String × String)) (k v : String) : List (String × String) :=
  if m.any (fun kv => kv.1 = k) then m.map (fun kv => if kv.1 = k then (k, v) else kv)
  else m ++ [(k, v)]

/-- Seeded system prompt of the default persona (source lines 107–114). -/
def defaultPersonaPrompt : String :=
  "You are a helpful assistant at \x7b\x7bcompany_name\x7d\x7d. Your job is to understand customer needs and guide them effectively. Always be professional, friendly, and helpful.\n\nUse this JSON structure for every reply:\n\x7b\n  \"answer\": \"<your response>\",\n  \"follow_up\": \"<relevant question>\",\n  \"escalate\": false\n\x7d"

/-- Shallow embedding of `system.create_customer_schema(p_customer_id, p_slug)`.

`CREATE SCHEMA IF NOT EXISTS` and the `CREATE TABLE IF NOT EXISTS` /
`CREATE INDEX IF NOT EXISTS` statements are no-ops when the object
already exists.  The default persona is inserted with
`ON CONFLICT DO NOTHING`, but the `personas` table created above carries
no unique constraint other than its primary key
`id UUID DEFAULT uuid_generate_v4()`; a fresh UUID (modelled by the
`next_uuid` counter) never collides, so the conflict clause never fires
and the insert always adds a row.  Finally the customer record's
`metadata.schema_name` is set. -/
def create_customer_schema (st : ProvState) (p_customer_id : String) (p_slug : String) :
    ProvState :=
  let v_schema_name := "customer_" ++ replaceDashUnderscore p_slug
  let schemas' := if v_schema_name ∈ st.schemas then st.schemas else st.schemas ++ [v_schema_name]
  let tablesWanted := ["personas", "leads", "conversations", "messages", "handoffs"].map
    (fun t => (v_schema_name, t))
  let tables' := st.tables ++ tablesWanted.filter (fun t => ¬ t ∈ st.tables)
  let newRow : PersonaRow :=
    { id := st.next_uuid
      name := "Default Assistant"
      system_prompt := defaultPersonaPrompt
      is_default := true }
  let personas' := st.personas ++ [(v_schema_name, newRow)]
  let customers' := st.customers.map (fun c =>
    if c.id = p_customer_id then { c with metadata := jsonbSet c.metadata "schema_name" v_schema_name }
    else c)
  { schemas := schemas'
    tables := tables'
    personas := personas'
    next_uuid := st.next_uuid + 1
    customers := customers' }

/-! ## Customer creation route (`src/api/routes/customers.ts`, POST `/`) -/

inductive CreateOutcome where
  | created
  | conflict
  | serverError
deriving DecidableEq

/-- Status code sent for each outcome of the creation handler
(`reply.status(201/409/500)`). -/
def createStatus : CreateOutcome → Nat
  | CreateOutcome.created => 201
  | CreateOutcome.conflict => 409
  | CreateOutcome.serverError => 500

/-- Shallow embedding of the POST `/` handler body.

`checkDb` is the `customers` table at the time of the pre-check
`select().where(eq(customers.slug, slug)).limit(1)`, `insertDb` the table
at the time of the insert (the two differ exactly when a concurrent
request inserted the slug in between).  The `customers.slug` column is
declared `.notNull().unique()` (`src/db/schema.ts`), so inserting a slug
already present throws a uniqueness violation, which the handler's
catch-all turns into a 500 response; only the pre-check produces 409. -/
def createCustomerRoute (checkDb insertDb : List CustomerRow) (slug : String) : CreateOutcome :=
  if (checkDb.filter (fun c => c.slug = slug)).length > 0 then CreateOutcome.conflict
  else if insertDb.any (fun c => c.slug = slug) then CreateOutcome.serverError
  else CreateOutcome.created

/-! ## Credential verification under store failure

Modelled from the spec: the repository's database client wrapper that
calls `system.validate_api_key` (a `validateApiKey` TypeScript function)
is not present under `src/` — only `src/db/README.md` and
`examples/database-usage.ts` reference it.  Per the spec (§7), when the
credential store is unreachable the Credential Verifier surfaces the
failure as an error (fail-closed): the request is never authenticated. -/

inductive CredError where
  | unauthorized
  | infrastructureUnavailable
deriving DecidableEq

structure Identity where
  tenantId : String
deriving DecidableEq

/-- Modelled from the spec: credential verification through the
credential store; `storeUp = false` is the infrastructure failure. -/
def verifyCredentialWithStore (storeUp : Bool) (validate : String → Option Identity)
    (rawKey : String) : Except CredError Identity :=
  if storeUp then
    match validate rawKey with
    | some i => Except.ok i
    | none => Except.error CredError.unauthorized
  else
    Except.error CredError.infrastructureUnavailable

/-! ## Decimal rendering is injective

Helper development used to separate the Redis keys of distinct fixed
windows: `Nat.repr` (the rendering used by template-string interpolation)
is injective, hence `redisKeyFor key w` determines `w`. -/

def digitVal (c : Char) : Nat := c.toNat - 48

def valOfDigits (l : List Char) : Nat :=
  l.foldl (fun acc c => acc * 10 + digitVal c) 0

lemma digitVal_digitChar (m : Nat) (h : m < 10) : digitVal (Nat.digitChar m) = m := by
  interval_cases m <;> rfl

lemma toDigitsCore_append (fuel : Nat) :
    ∀ (n : Nat) (ds : List Char),
      Nat.toDigitsCore 10 fuel n ds = Nat.toDigitsCore 10 fuel n [] ++ ds := by
  induction fuel with
  | zero => intro n ds; simp [Nat.toDigitsCore]
  | succ f ih =>
    intro n ds
    simp only [Nat.toDigitsCore]
    by_cases h : n / 10 = 0
    · simp [h]
    · simp only [h, if_false]
      rw [ih (n / 10) (Nat.digitChar (n % 10) :: ds), ih (n / 10) [Nat.digitChar (n % 10)]]
      simp

lemma valOfDigits_snoc (l : List Char) (c : Char) :
    valOfDigits (l ++ [c]) = valOfDigits l * 10 + digitVal c := by
  simp [valOfDigits, List.foldl_append]

lemma valOfDigits_toDigitsCore (fuel : Nat) :
    ∀ n : Nat, n < fuel → valOfDigits (Nat.toDigitsCore 10 fuel n []) = n := by
  induction fuel with
  | zero => intro n h; omega
  | succ f ih =>
    intro n h
    simp only [Nat.toDigitsCore]
    by_cases h0 : n / 10 = 0
    · simp only [h0, if_true]
      have hn : n < 10 := by omega
      simp [valOfDigits, Nat.mod_eq_of_lt hn, digitVal_digitChar n hn]
    · simp only [h0, if_false]
      rw [toDigitsCore_append, valOfDigits_snoc]
      have hlt : n / 10 < f := by
        have : n / 10 < n := Nat.div_lt_self (by omega) (by norm_num)
        omega
      rw [ih (n / 10) hlt, digitVal_digitChar (n % 10) (Nat.mod_lt n (by omega))]
      omega

lemma natRepr_injective : Function.Injective Nat.repr := by
  intro a b h
  have hd : Nat.toDigitsCore 10 (a + 1) a [] = Nat.toDigits 10 b := by
    have := congrArg String.data h
    simpa [Nat.repr, List.asString] using this
  have ha := valOfDigits_toDigitsCore (a + 1) a (Nat.lt_succ_self a)
  have hb := valOfDigits_toDigitsCore (b + 1) b (Nat.lt_succ_self b)
  unfold Nat.toDigits at hd
  rw [hd, hb] at ha
  exact ha.symm

lemma string_ext {a b : String} (h : a.data = b.data) : a = b := by
  cases a; cases b; exact congrArg String.mk h

lemma redisKeyFor_inj {key : String} {a b : Nat}
    (h : redisKeyFor key a = redisKeyFor key b) : a = b := by
  apply natRepr_injective
  apply string_ext
  have hd := congrArg String.data h
  simp only [redisKeyFor, String.data_append, List.append_assoc] at hd
  exact List.append_cancel_left (List.append_cancel_left (List.append_cancel_left hd))

/-! ## Rate limiter lemmas -/

lemma runRateLimiter_sameWindow (cfg : RateLimitConfig) (key : String) (w : Nat) :
    ∀ (ts : List Nat) (s : Store) (c : Nat),
      (∀ u ∈ ts, u / cfg.windowMs = w) →
      s (redisKeyFor key (w * cfg.windowMs)) = c →
      (runRateLimiter cfg key ts s).1 =
        (List.range ts.length).map (fun i => decide (c + i + 1 ≤ cfg.maxRequests)) ∧
      (runRateLimiter cfg key ts s).2 (redisKeyFor key (w * cfg.windowMs)) = c + ts.length ∧
      (∀ q, q ≠ redisKeyFor key (w * cfg.windowMs) → (runRateLimiter cfg key ts s).2 q = s q) := by
  intro ts
  induction ts with
  | nil =>
    intro s c _ hsc
    refine ⟨rfl, by simpa using hsc, fun q _ => rfl⟩
  | cons t ts ih =>
    intro s c hts hsc
    have hw : t / cfg.windowMs = w := hts t (List.mem_cons_self t ts)
    have hstep :
        isAllowed cfg true t key s =
          ({ allowed := decide (c + 1 ≤ cfg.maxRequests),
             remaining := cfg.maxRequests - (c + 1),
             resetTime := w * cfg.windowMs + cfg.windowMs },
           fun q => if q = redisKeyFor key (w * cfg.windowMs) then c + 1 else s q) := by
      simp only [isAllowed, redisIncr, hw, if_true, hsc]
    have hnext :
        (fun q => if q = redisKeyFor key (w * cfg.windowMs) then c + 1 else s q)
          (redisKeyFor key (w * cfg.windowMs)) = c + 1 := by simp
    obtain ⟨hflags, hcount, hframe⟩ :=
      ih (fun q => if q = redisKeyFor key (w * cfg.windowMs) then c + 1 else s q) (c + 1)
        (fun u hu => hts u (List.mem_cons_of_mem t hu)) hnext
    refine ⟨?_, ?_, ?_⟩
    · simp only [runRateLimiter, hstep, hflags, List.length_cons, List.range_succ_eq_map,
        List.map_cons, List.map_map]
      refine congrArg (fun l => _ :: l) (List.map_congr_left ?_)
      intro i _
      simp only [Function.comp]
      exact decide_eq_decide.mpr (by omega)
    · simp only [runRateLimiter, hstep, hcount, List.length_cons]
      omega
    · intro q hq
      simp only [runRateLimiter, hstep]
      rw [hframe q hq]
      simp [hq]

/-- C3 (amended): with `maxRequests ≥ 1`, starting from a store holding no
counters for the two windows involved, a sequence of `maxRequests + 1`
requests whose timestamps all fall in the fixed window with quotient `w`
is admitted for the first `maxRequests` requests and denied for the
`maxRequests + 1`-th, and the first request falling in the next window is
admitted again. -/
theorem rateLimiter_window_law (cfg : RateLimitConfig) (key : String) (w : Nat)
    (ts : List Nat) (t' : Nat) (s0 : Store)
    (hmax : 1 ≤ cfg.maxRequests)
    (hlen : ts.length = cfg.maxRequests + 1)
    (hts : ∀ u ∈ ts, u / cfg.windowMs = w)
    (ht' : t' / cfg.windowMs = w + 1)
    (hfresh : s0 (redisKeyFor key (w * cfg.windowMs)) = 0)
    (hfresh' : s0 (redisKeyFor key ((w + 1) * cfg.windowMs)) = 0) :
    (∀ i, i < cfg.maxRequests →
      (runRateLimiter cfg key ts s0).1.get? i = some true) ∧
    (runRateLimiter cfg key ts s0).1.get? cfg.maxRequests = some false ∧
    (isAllowed cfg true t' key (runRateLimiter cfg key ts s0).2).1.allowed = true := by
  obtain ⟨hflags, hcount, hframe⟩ :=
    runRateLimiter_sameWindow cfg key w ts s0 0 hts hfresh
  have hm0 : cfg.windowMs ≠ 0 := by
    intro h0
    rw [h0] at ht'
    simp at ht'
  have hkeys : redisKeyFor key ((w + 1) * cfg.windowMs) ≠ redisKeyFor key (w * cfg.windowMs) := by
    intro h
    have := redisKeyFor_inj h
    have : cfg.windowMs = 0 := by
      have h1 : (w + 1) * cfg.windowMs = w * cfg.windowMs + cfg.windowMs := by ring
      omega
    exact hm0 this
  refine ⟨?_, ?_, ?_⟩
  · intro i hi
    rw [hflags, hlen]
    rw [List.get?_map, List.get?_range (by omega : i < cfg.maxRequests + 1)]
    simp only [Option.map_some']
    have : decide (0 + i + 1 ≤ cfg.maxRequests) = true := decide_eq_true (by omega)
    rw [this]
  · rw [hflags, hlen]
    rw [List.get?_map, List.get?_range (by omega : cfg.maxRequests < cfg.maxRequests + 1)]
    simp only [Option.map_some']
    have : decide (0 + cfg.maxRequests + 1 ≤ cfg.maxRequests) = false :=
      decide_eq_false (by omega)
    rw [this]
  · have hs1 : (runRateLimiter cfg key ts s0).2 (redisKeyFor key ((w + 1) * cfg.windowMs)) = 0 := by
      rw [hframe _ hkeys, hfresh']
    simp only [isAllowed, redisIncr, ht', hs1, if_true]
    exact decide_eq_true (by omega)

/-- C3 counterexample: with `maxRequests = 0` (a limit the claim's
universal quantifier includes), the first request of the next window is
denied, not admitted: after the window-0 sequence `[0]` (of length
`maxRequests + 1`, whose single request is duly denied), the request at
time 10 — the first of the next window of the 10-tick limiter — is also
denied. -/
theorem rateLimiter_window_law_cex :
    (runRateLimiter ⟨10, 0⟩ "k" [0] (fun _ => 0)).1 = [false] ∧
    (10 : Nat) / 10 = 0 / 10 + 1 ∧
    (isAllowed ⟨10, 0⟩ true 10 "k"
      (runRateLimiter ⟨10, 0⟩ "k" [0] (fun _ => 0)).2).1.allowed = false := by
  refine ⟨rfl, rfl, ?_⟩
  decide

theorem rateLimiter_window_law_witness :
    (∀ i, i < (2 : Nat) →
      (runRateLimiter ⟨10, 2⟩ "k" [0, 3, 7] (fun _ => 0)).1.get? i = some true) ∧
    (runRateLimiter ⟨10, 2⟩ "k" [0, 3, 7] (fun _ => 0)).1.get? 2 = some false ∧
    (isAllowed ⟨10, 2⟩ true 12 "k"
      (runRateLimiter ⟨10, 2⟩ "k" [0, 3, 7] (fun _ => 0)).2).1.allowed = true :=
  rateLimiter_window_law ⟨10, 2⟩ "k" 0 [0, 3, 7] 12 (fun _ => 0)
    (by decide) (by decide) (by decide) (by decide) rfl rfl

/-- C4: when the counter store is unreachable (`redisUp = false`),
`isAllowed` admits the request with full remaining quota and an untouched
store, the middleware never produces the 429 outcome, and — in contrast —
the Credential Verifier under the same kind of infrastructure failure
never authenticates the request (fail-open vs fail-closed). -/
theorem rateLimiter_fails_open (cfg : RateLimitConfig) (now : Nat) (key : String) (s : Store) :
    (isAllowed cfg false now key s).1.allowed = true ∧
    (isAllowed cfg false now key s).2 = s ∧
    (rateLimitMiddleware cfg false now key s).1 =
      RateLimitDecision.proceed cfg.maxRequests (now + cfg.windowMs) ∧
    (∀ d, (rateLimitMiddleware cfg false now key s).1 ≠ RateLimitDecision.tooManyRequests d) ∧
    (∀ validate rawKey i,
      verifyCredentialWithStore false validate rawKey ≠ Except.ok i) := by
  refine ⟨rfl, rfl, rfl, ?_, ?_⟩
  · intro d h
    simp [rateLimitMiddleware, isAllowed] at h
  · intro validate rawKey i h
    simp [verifyCredentialWithStore] at h

theorem rateLimiter_fails_open_witness :
    (isAllowed ⟨10, 2⟩ false 5 "k" (fun _ => 0)).1.allowed = true ∧
    (isAllowed ⟨10, 2⟩ false 5 "k" (fun _ => 0)).2 = (fun _ => 0) ∧
    (rateLimitMiddleware ⟨10, 2⟩ false 5 "k" (fun _ => 0)).1 =
      RateLimitDecision.proceed 2 (5 + 10) ∧
    (∀ d, (rateLimitMiddleware ⟨10, 2⟩ false 5 "k" (fun _ => 0)).1 ≠
      RateLimitDecision.tooManyRequests d) ∧
    (∀ validate rawKey i,
      verifyCredentialWithStore false validate rawKey ≠ Except.ok i) :=
  rateLimiter_fails_open ⟨10, 2⟩ 5 "k" (fun _ => 0)

/-! ## Concrete crypto/parse stand-ins used by witnesses and counterexamples -/

/-- A concrete instantiation of the abstract MAC parameter, used to
evaluate the theorems at specific inputs (its output never contains a
dot, so it never perturbs the token structure). -/
def mac0 (secret msg : String) : String := secret ++ "-" ++ Nat.repr msg.length

/-- Concrete payload parser recognizing the literal payload `payload0`,
whose `exp` claim is 0. -/
def parseExp0 : String → Option JwtPayload := fun s =>
  if s = "payload0" then some { tenantId := some "tenantA", userId := none, exp := some 0 }
  else none

/-- Concrete payload parser recognizing the literal payload `payloadA`,
carrying tenant claim `tenantA` and no expiry. -/
def parseTenantA : String → Option JwtPayload := fun s =>
  if s = "payloadA" then some { tenantId := some "tenantA", userId := none, exp := none }
  else none

/-- Concrete payload parser recognizing the literal payload `payloadN`,
carrying no tenant claim. -/
def parseNoTenant : String → Option JwtPayload := fun s =>
  if s = "payloadN" then some { tenantId := none, userId := some "u1", exp := none }
  else none

/-! ## Credential verification theorems -/

/-- C1 (amended): `verifyJwt` succeeds — returning exactly the payload
parsed from the token, hence a `tenantId` equal to the token's embedded
tenant claim — if and only if the token splits into header, payload and
signature parts, the MAC of `header.payload` under the server secret
equals the signature, the payload parses, and the `exp` claim, if present
and nonzero, is not in the past; and every verification failure is
mapped by the auth middleware to the unauthorized outcome with status
401 (the middleware returns an outcome, so no exception escapes). -/
theorem verifyJwt_accept_iff (mac : String → String → String)
    (parse : String → Option JwtPayload) (now : Nat) (secret : String) :
    (∀ token p, verifyJwt mac parse now token secret = Except.ok p ↔
      ∃ headerB64 payloadB64 sig rest,
        splitOnChar '.' token = headerB64 :: payloadB64 :: sig :: rest ∧
        mac secret (headerB64 ++ "." ++ payloadB64) = sig ∧
        parse payloadB64 = some p ∧
        (∀ e, p.exp = some e → e = 0 ∨ now ≤ e)) ∧
    (∀ auth tok param e, splitOnChar ' ' auth = ["Bearer", tok] →
      verifyJwt mac parse now tok secret = Except.error e →
      ∃ msg, authenticateToken mac parse now secret (some auth) param =
          AuthOutcome.unauthorized msg ∧
        statusOf (AuthOutcome.unauthorized msg) = some 401) := by
  constructor
  · intro token p
    cases hsplit : splitOnChar '.' token with
    | nil => simp [verifyJwt, hsplit]
    | cons h1 t1 =>
      cases t1 with
      | nil => simp [verifyJwt, hsplit]
      | cons p1 t2 =>
        cases t2 with
        | nil => simp [verifyJwt, hsplit]
        | cons s1 rest =>
          simp only [verifyJwt, hsplit]
          by_cases hm : mac secret (h1 ++ "." ++ p1) = s1
          · rw [if_neg (by simp [hm])]
            cases hp : parse p1 with
            | none =>
              simp only [List.cons.injEq]
              constructor
              · intro h; cases h
              · rintro ⟨hb, pb, sg, r2, ⟨rfl, rfl, rfl, rfl⟩, _, hparse, _⟩
                rw [hp] at hparse; cases hparse
            | some payload =>
              cases hexp : payload.exp with
              | none =>
                simp only [hexp, List.cons.injEq]
                constructor
                · intro h
                  obtain rfl : payload = p := Except.ok.inj h
                  exact ⟨h1, p1, s1, rest, ⟨rfl, rfl, rfl, rfl⟩, hm, hp,
                    fun e he => by rw [hexp] at he; cases he⟩
                · rintro ⟨hb, pb, sg, r2, ⟨rfl, rfl, rfl, rfl⟩, _, hparse, _⟩
                  rw [hp] at hparse
                  obtain rfl : payload = p := Option.some.inj hparse
                  rfl
              | some e =>
                by_cases hcond : e ≠ 0 ∧ e < now
                · simp only [hexp, if_pos hcond, List.cons.injEq]
                  constructor
                  · intro h; cases h
                  · rintro ⟨hb, pb, sg, r2, ⟨rfl, rfl, rfl, rfl⟩, _, hparse, hexpok⟩
                    rw [hp] at hparse
                    obtain rfl : payload = p := Option.some.inj hparse
                    have := hexpok e hexp
                    omega
                · simp only [hexp, if_neg hcond, List.cons.injEq]
                  constructor
                  · intro h
                    obtain rfl : payload = p := Except.ok.inj h
                    refine ⟨h1, p1, s1, rest, ⟨rfl, rfl, rfl, rfl⟩, hm, hp, fun x hx => ?_⟩
                    rw [hexp] at hx
                    obtain rfl : e = x := Option.some.inj hx
                    omega
                  · rintro ⟨hb, pb, sg, r2, ⟨rfl, rfl, rfl, rfl⟩, _, hparse, _⟩
                    rw [hp] at hparse
                    obtain rfl : payload = p := Option.some.inj hparse
                    rfl
          · rw [if_pos (by simp [hm])]
            simp only [List.cons.injEq]
            constructor
            · intro h; cases h
            · rintro ⟨hb, pb, sg, r2, ⟨rfl, rfl, rfl, rfl⟩, hmac, _, _⟩
              exact absurd hmac hm
  · intro auth tok param e hsplit herr
    have hauth : truthy (some auth) = true := by
      by_contra hne
      have h0 : auth = "" := by
        simpa [truthy] using hne
      subst h0
      have he : splitOnChar ' ' "" = [""] := rfl
      rw [he] at hsplit
      simp at hsplit
    cases e with
    | invalidSignature =>
      exact ⟨"Invalid or expired token",
        by simp [authenticateToken, hauth, hsplit, herr], rfl⟩
    | malformedPayload =>
      exact ⟨"Invalid or expired token",
        by simp [authenticateToken, hauth, hsplit, herr], rfl⟩
    | tokenExpired =>
      exact ⟨"Token has expired",
        by simp [authenticateToken, hauth, hsplit, herr], rfl⟩

/-- C1 counterexample: a well-formed token whose `exp` claim equals 0 is
expired by at least 1 second at `now = 100`, yet `verifyJwt` accepts it —
the claim's required failure for tokens expired by ≥ 1 s does not hold,
because the truthiness test `payload.exp && payload.exp < now` skips a
zero `exp`. -/
theorem verifyJwt_expiry_cex :
    verifyJwt mac0 parseExp0 100 "h.payload0.secret-10" "secret" =
      Except.ok { tenantId := some "tenantA", userId := none, exp := some 0 } ∧
    (0 : Nat) + 1 ≤ 100 :=
  ⟨rfl, by omega⟩

theorem verifyJwt_accept_iff_witness :
    ∃ msg, authenticateToken mac0 parseExp0 50 "secret" (some "Bearer bad.token.sig") none =
        AuthOutcome.unauthorized msg ∧
      statusOf (AuthOutcome.unauthorized msg) = some 401 :=
  (verifyJwt_accept_iff mac0 parseExp0 50 "secret").2 "Bearer bad.token.sig" "bad.token.sig"
    none JwtError.invalidSignature rfl rfl

/-- C2: an identity scoped to tenant `tA` requesting a path that targets a
different tenant `tB` (both identifiers nonempty, as tenant ids are) is
rejected by the tenant guard with the Forbidden outcome, whose status 403
is distinct from Unauthorized 401 — both in the standalone `verifyTenant`
guard and in the in-line tenant check of `authenticateToken`. -/
theorem tenantGuard_mismatch_forbidden (tA tB : String)
    (hA : tA ≠ "") (hB : tB ≠ "") (hne : tA ≠ tB) :
    verifyTenant (some tA) (some tB) = GuardOutcome.forbidden ∧
    guardStatus GuardOutcome.forbidden = some 403 ∧
    (∀ mac parse now secret auth tok payload,
      splitOnChar ' ' auth = ["Bearer", tok] →
      verifyJwt mac parse now tok secret = Except.ok payload →
      payload.tenantId = some tA →
      authenticateToken mac parse now secret (some auth) (some tB) =
        AuthOutcome.forbidden "Access denied for this resource") ∧
    statusOf (AuthOutcome.forbidden "Access denied for this resource") = some 403 ∧
    ((403 : Nat) ≠ 401) := by
  refine ⟨?_, rfl, ?_, rfl, by omega⟩
  · simp [verifyTenant, truthy, hA, hB, hne]
  · intro mac parse now secret auth tok payload hsplit hok htid
    have hne0 : auth ≠ "" := by
      intro h0
      subst h0
      have he : splitOnChar ' ' "" = [""] := rfl
      rw [he] at hsplit
      simp at hsplit
    have hBA : tB ≠ tA := Ne.symm hne
    simp [authenticateToken, hsplit, hok, htid, truthy, hA, hB, hBA, hne0]

theorem tenantGuard_mismatch_forbidden_witness :
    verifyTenant (some "tenantA") (some "tenantB") = GuardOutcome.forbidden ∧
    authenticateToken mac0 parseTenantA 100 "secret" (some "Bearer h.payloadA.secret-10")
        (some "tenantB") = AuthOutcome.forbidden "Access denied for this resource" :=
  ⟨(tenantGuard_mismatch_forbidden "tenantA" "tenantB" (by decide) (by decide) (by decide)).1,
   (tenantGuard_mismatch_forbidden "tenantA" "tenantB" (by decide) (by decide)
      (by decide)).2.2.1 mac0 parseTenantA 100 "secret" "Bearer h.payloadA.secret-10"
      "h.payloadA.secret-10" { tenantId := some "tenantA", userId := none, exp := none }
      rfl rfl rfl⟩

/-- C9: a verified credential payload carrying no `tenantId` claim is never
rejected by the tenant guard, whatever explicit tenant identifier the
request path carries — `verifyTenant` passes, and `authenticateToken`
returns the payload unchallenged for every path parameter. -/
theorem guard_passthrough_no_tenant_claim (param : Option String) :
    verifyTenant none param = GuardOutcome.pass ∧
    (∀ mac parse now secret auth tok payload,
      splitOnChar ' ' auth = ["Bearer", tok] →
      verifyJwt mac parse now tok secret = Except.ok payload →
      payload.tenantId = none →
      authenticateToken mac parse now secret (some auth) param = AuthOutcome.ok payload) := by
  constructor
  · simp [verifyTenant, truthy]
  · intro mac parse now secret auth tok payload hsplit hok htid
    have hne0 : auth ≠ "" := by
      intro h0
      subst h0
      have he : splitOnChar ' ' "" = [""] := rfl
      rw [he] at hsplit
      simp at hsplit
    simp [authenticateToken, hsplit, hok, htid, truthy, hne0]

theorem guard_passthrough_witness :
    verifyTenant none (some "tenantB") = GuardOutcome.pass ∧
    authenticateToken mac0 parseNoTenant 100 "secret" (some "Bearer h.payloadN.secret-10")
        (some "tenantB") =
      AuthOutcome.ok { tenantId := none, userId := some "u1", exp := none } :=
  ⟨(guard_passthrough_no_tenant_claim (some "tenantB")).1,
   (guard_passthrough_no_tenant_claim (some "tenantB")).2 mac0 parseNoTenant 100 "secret"
     "Bearer h.payloadN.secret-10" "h.payloadN.secret-10"
     { tenantId := none, userId := some "u1", exp := none } rfl rfl rfl⟩

/-! ## API key validation theorems -/

/-- C5: `validate_api_key` reports the key valid if and only if some stored
`api_keys` row has `key_hash` equal to the one-way hash of the supplied
key, is active and unexpired, and its owning customer is active; and the
outcome depends only on the hash of the supplied key (the lookup is by
hash, never by plaintext — no row stores a plaintext secret). -/
theorem validate_api_key_iff (digest : String → String) (now : Nat) (db : SystemDb)
    (k : String) :
    ((validate_api_key digest now db k).1.any (fun r => r.is_valid) = true ↔
      ∃ ak ∈ db.api_keys, ∃ c ∈ db.customers,
        ak.key_hash = hash_api_key digest k ∧ c.id = ak.customer_id ∧
        ak.is_active = true ∧ (∀ e, ak.expires_at = some e → now < e) ∧
        c.is_active = true) ∧
    (∀ w, digest w = digest k →
      validate_api_key digest now db w = validate_api_key digest now db k) := by
  constructor
  · simp only [validate_api_key, List.any_eq_true, List.mem_flatMap, List.mem_filter,
      List.mem_map]
    constructor
    · rintro ⟨r, ⟨ak, ⟨hak, hhash⟩, c, ⟨⟨hc, hcid⟩, rfl⟩⟩, hvalid⟩
      simp only [Bool.and_eq_true] at hvalid
      refine ⟨ak, hak, c, hc, by simpa [hash_api_key] using hhash,
        by simpa using hcid, hvalid.1.1, ?_, hvalid.2⟩
      intro e he
      have := hvalid.1.2
      rw [he] at this
      simpa using this
    · rintro ⟨ak, hak, c, hc, hhash, hcid, hact, hexp, hcact⟩
      refine ⟨_, ⟨ak, ⟨hak, by simpa [hash_api_key] using hhash⟩,
        c, ⟨⟨hc, by simpa using hcid⟩, rfl⟩⟩, ?_⟩
      simp only [Bool.and_eq_true]
      refine ⟨⟨hact, ?_⟩, hcact⟩
      cases hx : ak.expires_at with
      | none => rfl
      | some e => simpa using hexp e hx
  · intro w hw
    simp only [validate_api_key, hash_api_key, hw]

def digest0 : String → String := fun s => "sha" ++ s

def custC5 : CustomerRow :=
  { id := "c1", slug := "acme", name := "Acme", is_active := true, metadata := [] }

def akC5 : ApiKeyRow :=
  { id := "k1", customer_id := "c1", key_hash := "shakey1", name := "main",
    last_used_at := none, is_active := true, created_at := 0, expires_at := none }

def dbC5 : SystemDb := { customers := [custC5], api_keys := [akC5] }

theorem validate_api_key_iff_witness :
    (validate_api_key digest0 5 dbC5 "key1").1.any (fun r => r.is_valid) = true :=
  (validate_api_key_iff digest0 5 dbC5 "key1").1.mpr
    ⟨akC5, by decide, custC5, by decide, rfl, rfl, rfl, by simp [akC5], rfl⟩

def hashConst : String → String := fun _ => "H"

def akInactive : ApiKeyRow :=
  { id := "k1", customer_id := "c1", key_hash := "H", name := "main",
    last_used_at := none, is_active := false, created_at := 0, expires_at := none }

def dbInactiveKey : SystemDb :=
  { customers := [custC5], api_keys := [akInactive] }

/-- C6 counterexample, refuting both failed parts of the claim at concrete
inputs.  First, validating a key whose hash matches a stored but
deactivated row fails validation (`is_valid = false` on the single result
row), yet `last_used_at` on the stored row is updated from `none` to the
current time — the update is not restricted to successful validation.
Second, the update is not best-effort: for a key that validates
successfully when every statement succeeds, a failure of the trailing
`last_used_at` UPDATE aborts the whole `validate_api_key` call with the
error — the validation request itself fails. -/
theorem validate_api_key_lastUsed_cex :
    (validate_api_key hashConst 5 dbInactiveKey "anykey").1.any (fun r => r.is_valid) = false ∧
    (validate_api_key hashConst 5 dbInactiveKey "anykey").1 =
      [{ customer_id := "c1", is_valid := false }] ∧
    (validate_api_key hashConst 5 dbInactiveKey "anykey").2.api_keys.map
      (fun ak => ak.last_used_at) = [some 5] ∧
    (validate_api_key digest0 5 dbC5 "key1").1.any (fun r => r.is_valid) = true ∧
    validate_api_key_call digest0 5 dbC5 "key1" false = Except.error SqlError.updateFailed := by
  refine ⟨by decide, by decide, by decide, by decide, rfl⟩

/-- C6 (amended): during validation `last_used_at` is set to the current
time on exactly the stored rows whose `key_hash` matches the hash of the
supplied key — whether or not validation succeeds — and validation
modifies no other field: customers are untouched, the key list keeps its
length, rows with a non-matching hash are returned unchanged, and a
matching row changes only its `last_used_at` field.  The update is not
best-effort: the call returns the validation result exactly when every
statement, the `last_used_at` UPDATE included, succeeds; a failing UPDATE
aborts the call with the propagated error. -/
theorem validate_api_key_frame (digest : String → String) (now : Nat) (db : SystemDb)
    (k : String) :
    (validate_api_key digest now db k).2.customers = db.customers ∧
    (validate_api_key digest now db k).2.api_keys.length = db.api_keys.length ∧
    (∀ i ak, db.api_keys.get? i = some ak →
      (validate_api_key digest now db k).2.api_keys.get? i =
        some (if ak.key_hash = hash_api_key digest k then { ak with last_used_at := some now }
          else ak)) ∧
    validate_api_key_call digest now db k true =
      Except.ok (validate_api_key digest now db k) ∧
    validate_api_key_call digest now db k false = Except.error SqlError.updateFailed := by
  refine ⟨rfl, by simp [validate_api_key], ?_, rfl, rfl⟩
  intro i ak hak
  simp only [validate_api_key]
  rw [List.get?_map, hak]
  rfl

theorem validate_api_key_frame_witness :
    (validate_api_key hashConst 7 dbInactiveKey "w").2.customers = dbInactiveKey.customers ∧
    (validate_api_key hashConst 7 dbInactiveKey "w").2.api_keys.get? 0 =
      some (if akInactive.key_hash = hash_api_key hashConst "w" then
        { akInactive with last_used_at := some 7 } else akInactive) ∧
    validate_api_key_call hashConst 7 dbInactiveKey "w" true =
      Except.ok (validate_api_key hashConst 7 dbInactiveKey "w") ∧
    validate_api_key_call hashConst 7 dbInactiveKey "w" false =
      Except.error SqlError.updateFailed :=
  ⟨(validate_api_key_frame hashConst 7 dbInactiveKey "w").1,
   (validate_api_key_frame hashConst 7 dbInactiveKey "w").2.2.1 0 akInactive rfl,
   (validate_api_key_frame hashConst 7 dbInactiveKey "w").2.2.2.1,
   (validate_api_key_frame hashConst 7 dbInactiveKey "w").2.2.2.2⟩

/-! ## Provisioning and creation theorems -/

def provTest0 : ProvState :=
  { schemas := [], tables := [], personas := [], next_uuid := 0,
    customers := [{ id := "cid", slug := "abc-honda", name := "Abc Honda",
                    is_active := true, metadata := [] }] }

/-- C7: evaluation of `create_customer_schema` twice at the failing input
`("cid", "abc-honda")` from an empty store.  The namespace is created
once (`CREATE SCHEMA IF NOT EXISTS` is idempotent), but the default
persona is seeded twice: the `ON CONFLICT DO NOTHING` guard never fires
because the `personas` table has no unique constraint other than its
freshly generated UUID primary key, so the state after the second call
differs from the state after the first. -/
theorem provisioning_not_idempotent :
    (create_customer_schema provTest0 "cid" "abc-honda").schemas = ["customer_abc_honda"] ∧
    ((create_customer_schema provTest0 "cid" "abc-honda").personas.filter
      (fun pr => pr.1 = "customer_abc_honda")).length = 1 ∧
    (create_customer_schema (create_customer_schema provTest0 "cid" "abc-honda")
      "cid" "abc-honda").schemas = ["customer_abc_honda"] ∧
    ((create_customer_schema (create_customer_schema provTest0 "cid" "abc-honda")
      "cid" "abc-honda").personas.filter
      (fun pr => pr.1 = "customer_abc_honda")).length = 2 ∧
    create_customer_schema (create_customer_schema provTest0 "cid" "abc-honda")
      "cid" "abc-honda" ≠ create_customer_schema provTest0 "cid" "abc-honda" := by
  refine ⟨rfl, rfl, rfl, rfl, ?_⟩
  intro h
  have hlen := congrArg (fun st => st.personas.length) h
  simp only [create_customer_schema, provTest0] at hlen
  simp at hlen

/-- C8 counterexample: a slug absent at pre-check time but present at
insert time (the racy duplicate) is answered with the generic 500
outcome, not the Conflict 409 outcome. -/
theorem createCustomer_conflict_cex :
    createCustomerRoute []
      [{ id := "c1", slug := "abc", name := "A", is_active := true, metadata := [] }] "abc" =
      CreateOutcome.serverError ∧
    createStatus CreateOutcome.serverError = 500 ∧
    createCustomerRoute []
      [{ id := "c1", slug := "abc", name := "A", is_active := true, metadata := [] }] "abc" ≠
      CreateOutcome.conflict := by
  decide

/-- C8 (amended): a duplicate slug detected by the existence pre-check is
mapped to the Conflict (409) outcome; a duplicate that appears only
between pre-check and insert is rejected by the storage layer's
uniqueness constraint and mapped by the route's catch-all to the generic
500 outcome, not Conflict; with no duplicate at either point the
customer is created (201). -/
theorem createCustomer_outcomes (checkDb insertDb : List CustomerRow) (slug : String) :
    ((∃ c ∈ checkDb, c.slug = slug) →
      createCustomerRoute checkDb insertDb slug = CreateOutcome.conflict ∧
      createStatus (createCustomerRoute checkDb insertDb slug) = 409) ∧
    ((∀ c ∈ checkDb, c.slug ≠ slug) → (∃ c ∈ insertDb, c.slug = slug) →
      createCustomerRoute checkDb insertDb slug = CreateOutcome.serverError ∧
      createStatus (createCustomerRoute checkDb insertDb slug) = 500) ∧
    ((∀ c ∈ checkDb, c.slug ≠ slug) → (∀ c ∈ insertDb, c.slug ≠ slug) →
      createCustomerRoute checkDb insertDb slug = CreateOutcome.created ∧
      createStatus (createCustomerRoute checkDb insertDb slug) = 201) := by
  have hfil : ((checkDb.filter (fun c => c.slug = slug)).length > 0) ↔
      ∃ c ∈ checkDb, c.slug = slug := by
    rw [gt_iff_lt, List.length_pos_iff_exists_mem]
    constructor
    · rintro ⟨c, hc⟩
      rw [List.mem_filter] at hc
      exact ⟨c, hc.1, by simpa using hc.2⟩
    · rintro ⟨c, hc, hs⟩
      exact ⟨c, List.mem_filter.mpr ⟨hc, by simpa using hs⟩⟩
  refine ⟨?_, ?_, ?_⟩
  · intro hex
    have hr : createCustomerRoute checkDb insertDb slug = CreateOutcome.conflict := by
      simp only [createCustomerRoute, if_pos (hfil.mpr hex)]
    exact ⟨hr, by rw [hr]; rfl⟩
  · intro hnone hins
    have hnotpre : ¬ ((checkDb.filter (fun c => c.slug = slug)).length > 0) := by
      rw [hfil]
      rintro ⟨c, hc, hs⟩
      exact hnone c hc hs
    have hany : insertDb.any (fun c => c.slug = slug) = true := by
      rw [List.any_eq_true]
      obtain ⟨c, hc, hs⟩ := hins
      exact ⟨c, hc, by simpa using hs⟩
    have hr : createCustomerRoute checkDb insertDb slug = CreateOutcome.serverError := by
      simp only [createCustomerRoute, if_neg hnotpre, hany, if_true]
    exact ⟨hr, by rw [hr]; rfl⟩
  · intro hnone hnone2
    have hnotpre : ¬ ((checkDb.filter (fun c => c.slug = slug)).length > 0) := by
      rw [hfil]
      rintro ⟨c, hc, hs⟩
      exact hnone c hc hs
    have hany : insertDb.any (fun c => c.slug = slug) = false := by
      rw [List.any_eq_false]
      intro c hc
      simpa using hnone2 c hc
    have hr : createCustomerRoute checkDb insertDb slug = CreateOutcome.created := by
      simp only [createCustomerRoute, if_neg hnotpre, hany, Bool.false_eq_true, if_false]
    exact ⟨hr, by rw [hr]; rfl⟩

theorem createCustomer_outcomes_witness :
    (createCustomerRoute
      [{ id := "c0", slug := "abc", name := "A", is_active := true, metadata := [] }]
      [{ id := "c0", slug := "abc", name := "A", is_active := true, metadata := [] }] "abc" =
      CreateOutcome.conflict ∧
     createStatus (createCustomerRoute
      [{ id := "c0", slug := "abc", name := "A", is_active := true, metadata := [] }]
      [{ id := "c0", slug := "abc", name := "A", is_active := true, metadata := [] }] "abc") =
      409) :=
  (createCustomer_outcomes
    [{ id := "c0", slug := "abc", name := "A", is_active := true, metadata := [] }]
    [{ id := "c0", slug := "abc", name := "A", is_active := true, metadata := [] }] "abc").1
    ⟨{ id := "c0", slug := "abc", name := "A", is_active := true, metadata := [] },
     by decide, rfl⟩

/-! ## Slug injectivity theorems -/

lemma sanitizeSlug_eq_some {slug n : String} (h : sanitizeSlug slug = some n) :
    n.data.all isSlugChar = true ∧ n = toLowerString slug := by
  simp only [sanitizeSlug] at h
  split at h
  · next hc =>
      have he : toLowerString slug = n := Option.some.inj h
      subst he
      exact ⟨hc.2, rfl⟩
  · cases h

lemma mapDash_inj_on :
    ∀ (l1 l2 : List Char), l1.all isSlugChar = true → l2.all isSlugChar = true →
      l1.map (fun c => if c = '-' then '_' else c) =
        l2.map (fun c => if c = '-' then '_' else c) →
      l1 = l2 := by
  intro l1
  induction l1 with
  | nil =>
    intro l2 _ _ h
    cases l2 with
    | nil => rfl
    | cons b t2 => simp at h
  | cons a t ih =>
    intro l2 h1 h2 h
    cases l2 with
    | nil => simp at h
    | cons b t2 =>
      simp only [List.map_cons, List.cons.injEq] at h
      simp only [List.all_cons, Bool.and_eq_true] at h1 h2
      obtain ⟨hab, ht⟩ := h
      have hceq : a = b := by
        by_cases ha : a = '-'
        · by_cases hb : b = '-'
          · rw [ha, hb]
          · rw [if_pos ha, if_neg hb] at hab
            exfalso
            rw [← hab] at h2
            exact absurd h2.1 (by decide)
        · by_cases hb : b = '-'
          · rw [if_neg ha, if_pos hb] at hab
            exfalso
            rw [hab] at h1
            exact absurd h1.1 (by decide)
          · rwa [if_neg ha, if_neg hb] at hab
      subst hceq
      rw [ih t2 h1.2 h2.2 ht]

/-- C10: `schemaNameFromSlug` is injective on sanitized slugs — two slugs
that both pass `sanitizeSlug` with distinct normalized values always get
distinct namespace handles, because replacing hyphens by underscores is
invertible on the sanitized alphabet (which excludes underscores) and the
`customer_` prefix is common to both. -/
theorem schemaNameFromSlug_injective (s1 s2 n1 n2 : String)
    (h1 : sanitizeSlug s1 = some n1) (h2 : sanitizeSlug s2 = some n2) (hne : n1 ≠ n2) :
    schemaNameFromSlug s1 ≠ schemaNameFromSlug s2 := by
  intro h
  simp only [schemaNameFromSlug, h1, h2, Option.map_some'] at h
  have hsome := Option.some.inj h
  have hd := congrArg String.data hsome
  simp only [String.data_append, replaceDashUnderscore] at hd
  have hmap := List.append_cancel_left hd
  obtain ⟨ha1, -⟩ := sanitizeSlug_eq_some h1
  obtain ⟨ha2, -⟩ := sanitizeSlug_eq_some h2
  have : n1.data = n2.data := mapDash_inj_on n1.data n2.data ha1 ha2 hmap
  exact hne (string_ext this)

theorem schemaNameFromSlug_injective_witness :
    schemaNameFromSlug "abc-honda" ≠ schemaNameFromSlug "abchonda" :=
  schemaNameFromSlug_injective "abc-honda" "abchonda" "abc-honda" "abchonda"
    (by decide) (by decide) (by decide)
